import Mathlib

/-!
A shallow embedding in Lean 4 of `src/commands.py` of the taubot repository:
the command-interpretation layer of a conversational ledger bot.  Python
strings are modelled as Lean `String`s (lists of characters), Python `int`
as `Int`, exceptions (`CommandException`) as `Except String`, and the two
external capabilities (the accounting service and the cryptographic
signature service) as explicit structures.  Everything is executable.
-/

namespace Taubot

/-! ### Python string primitives -/

/-- Characters treated as whitespace by Python string splitting (ASCII model). -/
def pyIsSpace (c : Char) : Bool :=
  c = ' ' || c = '\t' || c = '\n' || c = '\r' || c = '\x0b' || c = '\x0c'

/-- Auxiliary for `pySplit`: walks the character list accumulating the current token. -/
def pySplitAux : List Char → List Char → List String
  | [], [] => []
  | [], cur => [String.mk cur.reverse]
  | c :: cs, cur =>
    if pyIsSpace c then
      if cur = [] then pySplitAux cs []
      else String.mk cur.reverse :: pySplitAux cs []
    else pySplitAux cs (c :: cur)

/-- Python `str.split()` with no arguments: split on runs of whitespace, dropping empties. -/
def pySplit (s : String) : List String := pySplitAux s.data []

/-- Auxiliary for `pySplitNL1`: find the first newline, keeping the prefix reversed. -/
def splitFirstNLAux : List Char → List Char → Option (String × String)
  | [], _ => none
  | c :: cs, acc =>
    if c = '\n' then some (String.mk acc.reverse, String.mk cs)
    else splitFirstNLAux cs (c :: acc)

/-- Python `str.split('\n', 1)`: at most one split, at the first newline. -/
def pySplitNL1 (s : String) : List String :=
  match splitFirstNLAux s.data [] with
  | none => [s]
  | some (a, b) => [a, b]

/-- Python `str.strip(chars)` generalised: drop characters satisfying `p` from both ends. -/
def stripSet (p : Char → Bool) (s : String) : String :=
  String.mk (((s.data.dropWhile p).reverse.dropWhile p).reverse)

/-- Python `str.strip()` with no arguments: strip whitespace from both ends. -/
def pyStrip (s : String) : String := stripSet pyIsSpace s

/-- Python `str.strip('\n\r')`: strip newline and carriage-return characters from both ends. -/
def stripNLCR (s : String) : String := stripSet (fun c => c = '\n' || c = '\r') s

/-- Python `str.upper()` (ASCII model). -/
def pyUpper (s : String) : String := String.mk (s.data.map Char.toUpper)

/-- Python `str.lower()` (ASCII model). -/
def pyLower (s : String) : String := String.mk (s.data.map Char.toLower)

/-- Python `str.isspace()`: nonempty and all whitespace. -/
def pyIsSpaceStr (s : String) : Bool := !s.data.isEmpty && s.data.all pyIsSpace

/-- Digits (with single interior underscores permitted, as in Python 3 int
literals) accumulated into a natural number; any other character fails. -/
def pyDigitsAux (acc : Nat) : List Char → Option Nat
  | [] => some acc
  | '_' :: rest =>
    match rest with
    | [] => none
    | c :: cs => if c.isDigit then pyDigitsAux (10 * acc + (c.toNat - 48)) cs else none
  | c :: cs => if c.isDigit then pyDigitsAux (10 * acc + (c.toNat - 48)) cs else none

/-- The digit part of a Python integer literal: at least one digit, then `pyDigitsAux`. -/
def pyDigits : List Char → Option Nat
  | [] => none
  | c :: cs => if c.isDigit then pyDigitsAux (c.toNat - 48) cs else none

/-- Python `int(token)` on a whitespace-free token: optional sign, then digits
(with single interior underscores).  Returns `none` where Python raises `ValueError`. -/
def pyInt (s : String) : Option Int :=
  match s.data with
  | '+' :: rest => (pyDigits rest).map Int.ofNat
  | '-' :: rest => (pyDigits rest).map (fun n => -(n : Int))
  | l => (pyDigits l).map Int.ofNat

/-- Lexicographic order on character lists by code point, as Python compares strings. -/
def lexLeChars : List Char → List Char → Bool
  | [], _ => true
  | _ :: _, [] => false
  | a :: as, b :: bs =>
    if a.toNat < b.toNat then true
    else if a.toNat = b.toNat then lexLeChars as bs
    else false

/-- Python string `<=`: lexicographic by code point. -/
def strLe (a b : String) : Bool := lexLeChars a.data b.data

/-- Insert a string into a `strLe`-sorted list. -/
def insertStr (x : String) : List String → List String
  | [] => [x]
  | y :: ys => if strLe x y then x :: y :: ys else y :: insertStr x ys

/-- Insertion sort of strings modelling Python `sorted` on strings. -/
def sortStrings : List String → List String
  | [] => []
  | x :: xs => insertStr x (sortStrings xs)

/-! ### The authorization model

Modelled from the spec: the `Authorization` enumeration lives in `accounting.py`,
which is not under `src/`; the spec fixes an ordered, totally-comparable set of
levels `CITIZEN < ADMIN < DEVELOPER`, compared by rank via `.value`, with member
names used for display and for `Authorization[name]` lookup. -/

/-- Modelled from the spec: the ordered privilege levels of `accounting.Authorization`. -/
inductive Authorization
  | CITIZEN
  | ADMIN
  | DEVELOPER
deriving DecidableEq, Repr

/-- Modelled from the spec: the numeric rank used by `.value` comparisons. -/
def Authorization.value : Authorization → Nat
  | .CITIZEN => 0
  | .ADMIN => 1
  | .DEVELOPER => 2

/-- Modelled from the spec: the member name string of each level. -/
def Authorization.name : Authorization → String
  | .CITIZEN => "CITIZEN"
  | .ADMIN => "ADMIN"
  | .DEVELOPER => "DEVELOPER"

/-- Modelled from the spec: Python `Authorization[text]` lookup by member name,
with `KeyError` rendered as `none`. -/
def Authorization.fromName : String → Option Authorization
  | "CITIZEN" => some .CITIZEN
  | "ADMIN" => some .ADMIN
  | "DEVELOPER" => some .DEVELOPER
  | _ => none

/-! ### The signature service capability

`commands.py` consumes `base64`, `Crypto.PublicKey.ECC`, `Crypto.Signature.DSS`
and `Crypto.Hash.SHA3_512` as opaque cryptographic primitives (out of scope per
the spec).  They are modelled as a structure of abstract types and operations,
with the algebraic laws the protocol relies on: a signature made with a private
key verifies under the corresponding public key (and only under it), and base64
decoding inverts encoding, the encoding being a nonempty whitespace-free token. -/

structure CryptoModel where
  PrivKey : Type
  PubKey : Type
  Digest : Type
  Sig : Type
  pub : PrivKey → PubKey
  sha3_512 : String → Digest
  sign : PrivKey → Digest → Sig
  verify : PubKey → Digest → Sig → Bool
  b64encode : Sig → String
  b64decode : String → Except String Sig
  importKey : String → Except String PubKey
  verify_sign : ∀ k d, verify (pub k) d (sign k d) = true
  verify_unique : ∀ k p d, verify p d (sign k d) = true → p = pub k
  b64_roundtrip : ∀ s, b64decode (b64encode s) = .ok s
  b64encode_ne_empty : ∀ s, b64encode s ≠ ""
  b64encode_no_space : ∀ s, ∀ c ∈ (b64encode s).data, pyIsSpace c = false

/-! ### The accounting service capability

Modelled from the spec: the `AccountingService` and `Account` entities live in
`accounting.py`, which is not under `src/`; the spec (sections 3 and 6) fixes the
interface consumed by `commands.py`: accounts identified by unique name carrying
one authorization level, a balance and an ordered list of registered public keys;
`hasAccount`, `getAccount`, `openAccount`, `canTransfer`, `transfer`,
`printMoney`, `setAuthorization`, `addPublicKey`, `createRecurringTransfer`,
`listAccounts`, `getAccountId`.  The state records a log of the calls made so the
call discipline of the core can be stated; transfer feasibility and proof tokens
are abstract behaviour parameters. -/

/-- Modelled from the spec: an account entity (name, level, balance, key list). -/
structure Account (K : Type) where
  name : String
  auth : Authorization
  balance : Int
  keys : List K
deriving DecidableEq

/-- Modelled from the spec: `Account.get_balance`. -/
def Account.get_balance {K : Type} (a : Account K) : Int := a.balance

/-- Modelled from the spec: `Account.get_authorization`. -/
def Account.get_authorization {K : Type} (a : Account K) : Authorization := a.auth

/-- Modelled from the spec: `Account.list_public_keys`, in stored order. -/
def Account.list_public_keys {K : Type} (a : Account K) : List K := a.keys

/-- Events recording the accounting-service calls the core makes. -/
inductive Event
  | canTransfer (sender destination : String) (amount : Int)
  | transfer (author sender destination : String) (amount : Int)
  | openAccount (name : String)
  | authorize (author target : String) (level : Authorization)
  | printMoney (author destination : String) (amount : Int)
  | addPublicKey (account : String)
  | createRecurringTransfer (author sender destination : String)
      (totalAmount : Int) (tickCount : Int)
deriving DecidableEq, Repr

/-- Modelled from the spec: the mutable state behind the `AccountingService`
capability, together with abstract behaviour parameters and a call log. -/
structure Server (K : Type) where
  accounts : List (Account K)
  canTransferFn : String → String → Int → Bool
  transferProof : String → String → String → Int → Option String
  nextId : Nat
  log : List Event

/-- Modelled from the spec: `getAccount`, found by unique name. -/
def Server.get_account? {K : Type} (s : Server K) (accountName : String) : Option (Account K) :=
  s.accounts.find? (fun a => a.name = accountName)

/-- Modelled from the spec: `hasAccount` (an account exists iff `getAccount` finds it). -/
def Server.has_account {K : Type} (s : Server K) (accountName : String) : Bool :=
  (s.get_account? accountName).isSome

/-- Replace the data of the account with the given name. -/
def Server.updateAccount {K : Type} (s : Server K) (accountName : String)
    (f : Account K → Account K) : Server K :=
  { s with accounts := s.accounts.map (fun a => if a.name = accountName then f a else a) }

/-- Modelled from the spec: `openAccount` creates a fresh default-level account. -/
def Server.open_account {K : Type} (s : Server K) (accountName : String) : Server K :=
  { s with
    accounts := s.accounts ++ [{ name := accountName, auth := .CITIZEN, balance := 0, keys := [] }]
    log := s.log ++ [.openAccount accountName] }

/-- Modelled from the spec: `canTransfer` asks the abstract feasibility policy;
the call is logged. -/
def Server.can_transfer {K : Type} (s : Server K) (sender destination : Account K)
    (amount : Int) : Bool × Server K :=
  (s.canTransferFn sender.name destination.name amount,
   { s with log := s.log ++ [.canTransfer sender.name destination.name amount] })

/-- Modelled from the spec: `transfer` moves the amount and may return a proof token. -/
def Server.transfer {K : Type} (s : Server K) (author sender destination : Account K)
    (amount : Int) : Option String × Server K :=
  let s1 := (s.updateAccount sender.name (fun a => { a with balance := a.balance - amount })).updateAccount
    destination.name (fun a => { a with balance := a.balance + amount })
  (s.transferProof author.name sender.name destination.name amount,
   { s1 with log := s1.log ++ [.transfer author.name sender.name destination.name amount] })

/-- Modelled from the spec: `setAuthorization`. -/
def Server.authorize {K : Type} (s : Server K) (author target : Account K)
    (level : Authorization) : Server K :=
  let s1 := s.updateAccount target.name (fun a => { a with auth := level })
  { s1 with log := s1.log ++ [.authorize author.name target.name level] }

/-- Modelled from the spec: `printMoney`. -/
def Server.print_money {K : Type} (s : Server K) (author destination : Account K)
    (amount : Int) : Server K :=
  let s1 := s.updateAccount destination.name (fun a => { a with balance := a.balance + amount })
  { s1 with log := s1.log ++ [.printMoney author.name destination.name amount] }

/-- Modelled from the spec: `addPublicKey` appends to the stored key list. -/
def Server.add_public_key {K : Type} (s : Server K) (account : Account K) (key : K) : Server K :=
  let s1 := s.updateAccount account.name (fun a => { a with keys := a.keys ++ [key] })
  { s1 with log := s1.log ++ [.addPublicKey account.name] }

/-- Modelled from the spec: `createRecurringTransfer` returns a handle with an identifier. -/
def Server.create_recurring_transfer {K : Type} (s : Server K)
    (author sender destination : Account K) (totalAmount : Int) (tickCount : Int) :
    Nat × Server K :=
  (s.nextId,
   { s with
     nextId := s.nextId + 1
     log := s.log ++ [.createRecurringTransfer author.name sender.name destination.name
       totalAmount tickCount] })

/-- Modelled from the spec: `listAccounts`. -/
def Server.list_accounts {K : Type} (s : Server K) : List (Account K) := s.accounts

/-- Modelled from the spec: `getAccountId` renders an account identifier. -/
def Server.get_account_id {K : Type} (_s : Server K) (a : Account K) : String := a.name

/-! ### `commands.py`: parsers

`CommandException` is modelled as the `Except String` error constructor; a
handler has result type `Except String String × Server K` (reply or raised
message, plus the accounting state, whose mutations survive exceptions just as
Python in-place mutation does). -/

/-- `parse_transfer_command`: exactly three tokens, integer amount. -/
def parse_transfer_command (message : String) : Option (Int × String) :=
  match pySplit message with
  | [_, amount_text, destination] =>
    match pyInt amount_text with
    | some amount => some (amount, destination)
    | none => none
  | _ => none

/-- `parse_admin_transfer_command`: exactly four tokens, integer amount. -/
def parse_admin_transfer_command (message : String) : Option (String × Int × String) :=
  match pySplit message with
  | [_, amount_text, sender, destination] =>
    match pyInt amount_text with
    | some amount => some (sender, amount, destination)
    | none => none
  | _ => none

/-- `parse_authorization`: exactly three tokens, role name looked up case-insensitively. -/
def parse_authorization (message : String) : Option (String × Authorization) :=
  match pySplit message with
  | [_, beneficiary, auth_level] =>
    match Authorization.fromName (pyUpper auth_level) with
    | some level => some (beneficiary, level)
    | none => none
  | _ => none

/-- `parse_print_money`: exactly three tokens, integer amount. -/
def parse_print_money (message : String) : Option (Int × String) :=
  match pySplit message with
  | [_, amount_text, beneficiary] =>
    match pyInt amount_text with
    | some amount => some (amount, beneficiary)
    | none => none
  | _ => none

/-- `parse_admin_create_recurring_transfer`: exactly five tokens, two integers. -/
def parse_admin_create_recurring_transfer (message : String) :
    Option (Int × String × String × Int) :=
  match pySplit message with
  | [_, amount_text, sender, destination, tick_count_text] =>
    match pyInt amount_text, pyInt tick_count_text with
    | some amount, some tick_count => some (amount, sender, destination, tick_count)
    | _, _ => none
  | _ => none

/-! ### `commands.py`: account assertions -/

/-- `assert_is_account`: the account must exist; returns it.  (Python checks
`has_account` and then calls `get_account`; here `has_account` is by definition
the success of the lookup, so the two collapse into one `match`.) -/
def assert_is_account {K : Type} (account_name : String) (server : Server K) :
    Except String (Account K) :=
  match server.get_account? account_name with
  | some account => .ok account
  | none => .error ("Sorry, I can't process your request because `" ++ account_name ++
      "` does not have an account yet.")

/-- `assert_authorized`: the account must exist and reach the given level. -/
def assert_authorized {K : Type} (account_name : String) (server : Server K)
    (auth_level : Authorization) : Except String (Account K) :=
  match assert_is_account account_name server with
  | .error e => .error e
  | .ok account =>
    if account.get_authorization.value < auth_level.value then
      .error ("Sorry, I can't process your request because `" ++ account_name ++
        "` does not have the required authorization.")
    else .ok account

/-! ### `commands.py`: command handlers -/

/-- `perform_transfer`: assert the three parties, ask `can_transfer`, then `transfer`. -/
def perform_transfer {K : Type} (author_name sender_name destination_name : String)
    (amount : Int) (server : Server K) : Except String String × Server K :=
  match assert_is_account author_name server with
  | .error e => (.error e, server)
  | .ok author =>
    match assert_is_account sender_name server with
    | .error e => (.error e, server)
    | .ok sender =>
      match assert_is_account destination_name server with
      | .error e => (.error e, server)
      | .ok dest =>
        let r := server.can_transfer sender dest amount
        if !r.1 then
          (.ok "Sorry, but I can't perform that transfer.", r.2)
        else
          let t := r.2.transfer author sender dest amount
          let proof_string :=
            match t.1 with
            | some proof => " Proof: " ++ proof ++ "."
            | none => ""
          (.ok ("Transfer performed successfully." ++ proof_string), t.2)

/-- `process_transfer`. -/
def process_transfer {K : Type} (author message : String) (server : Server K) :
    Except String String × Server K :=
  match parse_transfer_command message with
  | none =>
    (.ok ("Transfer formatted incorrectly. Expected `transfer AMOUNT BENEFICIARY`, " ++
      "where AMOUNT is a positive integer and BENEFICIARY is a username."), server)
  | some (amount, destination_name) =>
    perform_transfer author author destination_name amount server

/-- `process_admin_transfer`. -/
def process_admin_transfer {K : Type} (author message : String) (server : Server K) :
    Except String String × Server K :=
  match assert_authorized author server Authorization.ADMIN with
  | .error e => (.error e, server)
  | .ok _ =>
    match parse_admin_transfer_command message with
    | none =>
      (.ok ("Admin transfer formatted incorrectly. Expected `admin-transfer AMOUNT SENDER " ++
        "BENEFICIARY`, where AMOUNT is a positive integer and SENDER, BENEFICIARY are " ++
        "account holders."), server)
    | some (sender_name, amount, destination_name) =>
      perform_transfer author sender_name destination_name amount server

/-- `process_open_account`. -/
def process_open_account {K : Type} (author _message : String) (server : Server K) :
    Except String String × Server K :=
  if server.has_account author then
    (.ok ("Hi there " ++ author ++ ". Looks like you already have an account. " ++
      "No need to open another one."), server)
  else
    (.ok ("Hi there " ++ author ++ ". Your account has been opened successfully. " ++
      "Thank you for your business."), server.open_account author)

/-- `process_admin_open_account`. -/
def process_admin_open_account {K : Type} (author message : String) (server : Server K) :
    Except String String × Server K :=
  match assert_authorized author server Authorization.ADMIN with
  | .error e => (.error e, server)
  | .ok _ =>
    match pySplit message with
    | [_, account_name] =>
      if server.has_account account_name then
        (.error ("Account `" ++ account_name ++ "` already exists."), server)
      else
        (.ok ("Account `" ++ account_name ++ "` has been opened successfully."),
         server.open_account account_name)
    | _ =>
      (.error ("Incorrectly formatted command; expected `admin-open ACCOUNT_NAME`, " ++
        "where `ACCOUNT_NAME` is the name of the account to create."), server)

/-- `process_balance`. -/
def process_balance {K : Type} (author _message : String) (server : Server K) :
    Except String String × Server K :=
  match server.get_account? author with
  | none =>
    (.ok ("Hi there " ++ author ++ ". I can't tell you what the balance on your account " ++
      "is because you don't have an account yet. You can open one with the `open` command."),
     server)
  | some account =>
    let main_response := "The balance on your account is " ++ toString account.get_balance ++ "."
    (.ok ("Hi there " ++ pyLower account.get_authorization.name ++ " " ++ author ++ ". " ++
      main_response ++ " Have a great day."), server)

/-- `process_add_public_key`: gather the PEM body lines, import the key, register it. -/
def process_add_public_key (M : CryptoModel) (author message : String)
    (server : Server M.PubKey) : Except String String × Server M.PubKey :=
  match assert_is_account author server with
  | .error e => (.error e, server)
  | .ok account =>
    let pem := String.intercalate "\n"
      (((message.splitOn "\n").drop 1).filter (fun line => line != "" && !pyIsSpaceStr line))
    match M.importKey pem with
    | .error e =>
      (.error ("Incorrectly formatted key. Inner error message: " ++ e ++ "."), server)
    | .ok key =>
      (.ok "Public key added successfully.", server.add_public_key account key)

/-- `process_authorization`. -/
def process_authorization {K : Type} (author message : String) (server : Server K) :
    Except String String × Server K :=
  match assert_authorized author server Authorization.ADMIN with
  | .error e => (.error e, server)
  | .ok author_account =>
    match parse_authorization message with
    | none =>
      (.error ("Authorization formatted incorrectly. The right format is " ++
        "`authorize BENEFICIARY citizen|admin|developer`."), server)
    | some (beneficiary, auth_level) =>
      match assert_is_account beneficiary server with
      | .error e => (.error e, server)
      | .ok beneficiary_account =>
        (.ok (beneficiary ++ " now has authorization level " ++ auth_level.name ++ "."),
         server.authorize author_account beneficiary_account auth_level)

/-- `process_list_accounts`. -/
def process_list_accounts {K : Type} (_author _message : String) (server : Server K) :
    Except String String × Server K :=
  (.ok (String.intercalate "\n"
    (["| Account | Balance |", "| --- | --- |"] ++
      server.list_accounts.map (fun account =>
        "| " ++ server.get_account_id account ++ " | " ++
          toString account.get_balance ++ " |"))), server)

/-- `process_print_money`. -/
def process_print_money {K : Type} (author message : String) (server : Server K) :
    Except String String × Server K :=
  match assert_authorized author server Authorization.ADMIN with
  | .error e => (.error e, server)
  | .ok author_account =>
    match parse_print_money message with
    | none =>
      (.error "Command formatted incorrectly. Expected format `print-money AMOUNT BENEFICIARY`.",
       server)
    | some (amount, beneficiary) =>
      match assert_is_account beneficiary server with
      | .error e => (.error e, server)
      | .ok beneficiary_account =>
        (.ok "Money printed successfully.",
         server.print_money author_account beneficiary_account amount)

/-- `process_admin_create_recurring_transfer`. -/
def process_admin_create_recurring_transfer {K : Type} (author message : String)
    (server : Server K) : Except String String × Server K :=
  match assert_authorized author server Authorization.ADMIN with
  | .error e => (.error e, server)
  | .ok _ =>
    match parse_admin_create_recurring_transfer message with
    | none =>
      (.ok ("Request formatted incorrectly. Expected `admin-create-recurring-transfer " ++
        "AMOUNT_PER_TICK SENDER BENEFICIARY TICK_COUNT`."), server)
    | some (amount, sender_name, destination_name, tick_count) =>
      match assert_is_account author server with
      | .error e => (.error e, server)
      | .ok author_account =>
        match assert_is_account sender_name server with
        | .error e => (.error e, server)
        | .ok sender_account =>
          match assert_is_account destination_name server with
          | .error e => (.error e, server)
          | .ok dest_account =>
            let t := server.create_recurring_transfer author_account sender_account
              dest_account (amount * tick_count) tick_count
            (.ok ("Recurring transfer set up with ID `" ++ toString t.1 ++ "`."), t.2)

/-! ### `commands.py`: the signature delegation protocol -/

/-- The guidance text of the malformed-proxy-envelope condition. -/
def proxyFormattingError : String :=
  "Invalid formatting; expected `proxy dsa PROXIED_ACCOUNT SIGNATURE` followed by " ++
    "another command on the next line."

/-- The generic invalid-signature condition text. -/
def proxySignatureError : String :=
  "Cannot execute command by proxy because the signature is invalid."

/-- The inner `parse_impl` of `parse_proxy_command`: `none` encodes Python `None`
(a structurally malformed envelope), while `.error` is the `CommandException`
raised directly when base64 decoding fails. -/
def parse_proxy_command_impl (M : CryptoModel) (message : String) :
    Except String (Option (String × M.Sig × String)) :=
  match pySplitNL1 message with
  | [proxy_line, command0] =>
    let command := stripNLCR command0
    match pySplit proxy_line with
    | [_, protocol, account_name, enc_signature] =>
      if protocol != "dsa" then .ok none
      else
        match M.b64decode enc_signature with
        | .error e => .error ("Invalid signature. " ++ e)
        | .ok signature => .ok (some (account_name, signature, command))
    | _ => .ok none
  | _ => .ok none

/-- `parse_proxy_command`: a `None` from the inner parser becomes the
malformed-envelope `CommandException`. -/
def parse_proxy_command (M : CryptoModel) (message : String) :
    Except String (String × M.Sig × String) :=
  match parse_proxy_command_impl M message with
  | .error e => .error e
  | .ok none => .error proxyFormattingError
  | .ok (some result) => .ok result

/-- `compose_proxy_command`: strip the body, hash it, sign the hash, emit the
two-part envelope. -/
def compose_proxy_command (M : CryptoModel) (proxied_account_name : String)
    (key : M.PrivKey) (command : String) : String :=
  let command' := pyStrip command
  let command_hash := M.sha3_512 command'
  let signature := M.b64encode (M.sign key command_hash)
  "proxy dsa " ++ proxied_account_name ++ " " ++ signature ++ "\n" ++ command'

/-- The key loop of `process_proxy_command`: try each registered key in stored
order, stopping at the first one under which the signature verifies (`verify`
raising `ValueError` in Python is verification returning `false` here). -/
def verify_keys (M : CryptoModel) (command_hash : M.Digest) (signature : M.Sig) :
    List M.PubKey → Bool
  | [] => false
  | key :: rest =>
    if M.verify key command_hash signature then true
    else verify_keys M command_hash signature rest

/-- The body of `process_proxy_command`, with the recursive re-entry into
`process_command` abstracted as `dispatch` (instantiated below with the
fuel-indexed dispatcher, Python's recursion being unbounded). -/
def process_proxy_core (M : CryptoModel)
    (dispatch : String → String → Server M.PubKey → String × Server M.PubKey)
    (_author message : String) (server : Server M.PubKey) :
    Except String String × Server M.PubKey :=
  match parse_proxy_command M message with
  | .error e => (.error e, server)
  | .ok (account_name, signature, command) =>
    match assert_is_account account_name server with
    | .error e => (.error e, server)
    | .ok account =>
      let command_hash := M.sha3_512 command
      let any_verified := verify_keys M command_hash signature account.list_public_keys
      if any_verified then
        let r := dispatch account_name command server
        (.ok r.1, r.2)
      else
        (.error proxySignatureError, server)

/-! ### `commands.py`: registry and dispatcher -/

/-- Identifies the handler function of a registry entry (`COMMANDS[key][2]`). -/
inductive HandlerId
  | help
  | transfer
  | openAccount
  | balance
  | addPublicKey
  | proxy
  | authorize
  | adminTransfer
  | listAccounts
  | printMoney
  | adminCreateRecurringTransfer
  | adminOpen
deriving DecidableEq, Repr

/-- A registry entry: usage text, description, handler, and the optional fourth
tuple slot holding a minimum authorization (`len(cmd) >= 4` iff `minAuth.isSome`). -/
structure CommandInfo where
  usage : String
  description : String
  handler : HandlerId
  minAuth : Option Authorization := none
deriving DecidableEq, Repr

/-- The `COMMANDS` table, in its Python insertion order. -/
def COMMANDS : List (String × CommandInfo) := [
  ("help", { usage := "help", description := "prints a help message.", handler := .help }),
  ("transfer",
    { usage := "transfer AMOUNT BENEFICIARY",
      description := "transfers AMOUNT to user BENEFICIARY's account.",
      handler := .transfer }),
  ("open", { usage := "open", description := "opens a new account.", handler := .openAccount }),
  ("balance",
    { usage := "balance", description := "prints the balance on your account.",
      handler := .balance }),
  ("add-public-key",
    { usage := "add-public-key",
      description := "associates an ECC public key with your account. The public key " ++
        "should be encoded as the contents of a PEM file that is placed on a line after " ++
        "the command itself.",
      handler := .addPublicKey }),
  ("proxy",
    { usage := "proxy dsa PROXIED_ACCOUNT SIGNATURE",
      description := "makes PROXIED_ACCOUNT describes the action described in the " ++
        "remainder of the message (starting on the next line). SIGNATURE must be an " ++
        "ECDSA-signed SHA3-512 hash of the remainder of the message, where the key that " ++
        "signs the message must have its public key associated with the proxied account. " ++
        "This command allows a user or application to safely perform actions on an " ++
        "account holder's behalf.",
      handler := .proxy }),
  ("authorize",
    { usage := "authorize ACCOUNT citizen|admin|developer",
      description := "sets an account's authorization.",
      handler := .authorize, minAuth := some .ADMIN }),
  ("admin-transfer",
    { usage := "admin-transfer AMOUNT SENDER BENEFICIARY",
      description := "transfers AMOUNT from SENDER to BENEFICIARY.",
      handler := .adminTransfer, minAuth := some .ADMIN }),
  ("list",
    { usage := "list", description := "lists all accounts and the balance on the accounts.",
      handler := .listAccounts, minAuth := some .ADMIN }),
  ("print-money",
    { usage := "print-money AMOUNT BENEFICIARY",
      description := "generates AMOUNT money and deposits it in BENEFICIARY's account.",
      handler := .printMoney, minAuth := some .ADMIN }),
  ("admin-create-recurring-transfer",
    { usage := "admin-create-recurring-transfer AMOUNT_PER_TICK SENDER BENEFICIARY TICK_COUNT",
      description := "creates a transfer that will transfer AMOUNT_PER_TICK from SENDER " ++
        "to BENEFICIARY every tick, for TICK_COUNT ticks.",
      handler := .adminCreateRecurringTransfer, minAuth := some .ADMIN }),
  ("admin-open",
    { usage := "admin-open ACCOUNT_NAME",
      description := "opens a new account with a particular name. If a user has " ++
        "ACCOUNT_NAME, then the newly created account will become that user's account.",
      handler := .adminOpen, minAuth := some .ADMIN })]

/-- Registry lookup (`COMMANDS[token]`, with `token in COMMANDS` iff `some`). -/
def lookupCommand (token : String) : Option CommandInfo :=
  (COMMANDS.find? (fun p => p.1 = token)).map Prod.snd

/-- The visibility condition of `list_commands`:
`len(COMMANDS[key]) < 4 or auth.value >= COMMANDS[key][3].value`. -/
def commandVisible (auth : Authorization) (cmd : CommandInfo) : Bool :=
  match cmd.minAuth with
  | none => true
  | some m => decide (auth.value ≥ m.value)

/-- The formatted listing entry of one registry record. -/
def commandEntry (cmd : CommandInfo) : String :=
  "`" ++ cmd.usage ++ "` &ndash; " ++ cmd.description

/-- `get_authorization_or_citizen`. -/
def get_authorization_or_citizen {K : Type} (author : String) (server : Server K) :
    Authorization :=
  match server.get_account? author with
  | some account => account.get_authorization
  | none => Authorization.CITIZEN

/-- `list_commands`: formatted entries for the sorted keys visible at the
author's (or default) level. -/
def list_commands {K : Type} (author : String) (server : Server K) : List String :=
  (sortStrings (COMMANDS.map Prod.fst)).filterMap (fun key =>
    match lookupCommand key with
    | some cmd =>
      if commandVisible (get_authorization_or_citizen author server) cmd then
        some (commandEntry cmd)
      else none
    | none => none)

/-- `list_commands_as_markdown`. -/
def list_commands_as_markdown {K : Type} (author : String) (server : Server K) : String :=
  String.intercalate "\n" ((list_commands author server).map (fun item => "  * " ++ item))

/-- `process_help`. -/
def process_help {K : Type} (author : String) (server : Server K) : String :=
  "\nHi " ++ author ++ "! Here's a list of the commands I understand:\n\n" ++
    list_commands_as_markdown author server

/-- `process_command`, with a fuel bound on proxy-in-proxy nesting (the Python
source recurses without bound; every claim below holds for every fuel value
large enough for its nesting depth).  A registered command whose minimum level
exceeds `CITIZEN` passes through `assert_authorized` first; a `CommandException`
from the gate or the handler becomes the reply text. -/
def process_command (M : CryptoModel) :
    Nat → String → String → Server M.PubKey → String × Server M.PubKey
  | fuel, author, message, server =>
    match pySplit message with
    | [] =>
      ("Hi " ++ author ++ "! You sent me an empty message. Here's a list of commands " ++
        "I do understand:\n\n" ++ list_commands_as_markdown author server, server)
    | first :: _ =>
      match lookupCommand first with
      | none =>
        ("Hi " ++ author ++ "! I didn't quite understand command your command `" ++ first ++
          "`. Here's a list of commands I do understand:\n\n" ++
          list_commands_as_markdown author server, server)
      | some cmd =>
        let gate : Except String Unit :=
          match cmd.minAuth with
          | some level =>
            if Authorization.CITIZEN.value < level.value then
              (assert_authorized author server level).map (fun _ => ())
            else .ok ()
          | none => .ok ()
        match gate with
        | .error e => (e, server)
        | .ok _ =>
          let r : Except String String × Server M.PubKey :=
            match cmd.handler with
            | .help => (.ok (process_help author server), server)
            | .transfer => process_transfer author message server
            | .openAccount => process_open_account author message server
            | .balance => process_balance author message server
            | .addPublicKey => process_add_public_key M author message server
            | .proxy =>
              match fuel with
              | 0 => (.error "Proxy recursion limit reached.", server)
              | n + 1 => process_proxy_core M (process_command M n) author message server
            | .authorize => process_authorization author message server
            | .adminTransfer => process_admin_transfer author message server
            | .listAccounts => process_list_accounts author message server
            | .printMoney => process_print_money author message server
            | .adminCreateRecurringTransfer =>
              process_admin_create_recurring_transfer author message server
            | .adminOpen => process_admin_open_account author message server
          match r with
          | (.error e, server2) => (e, server2)
          | (.ok reply, server2) => (reply, server2)

/-- `process_proxy_command`: decode and verify the envelope, then re-enter the
dispatcher with the proxied account as the acting identity.  The fuel case split
matches the proxy branch of `process_command`, so that branch is exactly
`process_proxy_command M fuel`. -/
def process_proxy_command (M : CryptoModel) (fuel : Nat) (author message : String)
    (server : Server M.PubKey) : Except String String × Server M.PubKey :=
  match fuel with
  | 0 => (.error "Proxy recursion limit reached.", server)
  | n + 1 => process_proxy_core M (process_command M n) author message server

/-! ### A concrete signature-service instance

Used to evaluate the development at concrete inputs: keys are naturals, a
signature records the signing key, verification compares it with the public key,
and the base64 encoding of a signature `n` is a run of `n + 1` letters `A`
(nonempty, whitespace-free, decodable; any other text fails to decode, as
ill-padded text makes Python's `base64.b64decode` raise `binascii.Error`). -/

def trivialCrypto : CryptoModel where
  PrivKey := Nat
  PubKey := Nat
  Digest := String
  Sig := Nat
  pub := id
  sha3_512 := fun s => s
  sign := fun k _ => k
  verify := fun p _ s => decide (s = p)
  b64encode := fun s => String.mk (List.replicate (s + 1) 'A')
  b64decode := fun str =>
    if str.data.all (fun c => c = 'A') && !str.data.isEmpty then .ok (str.data.length - 1)
    else .error "Invalid base64-encoded string"
  importKey := fun str => .ok str.data.length
  verify_sign := by
    intro k d
    simp
  verify_unique := by
    intro k p d h
    exact (of_decide_eq_true h).symm
  b64_roundtrip := by
    intro s
    have hall : (List.replicate (s + 1) 'A').all (fun c => c = 'A') = true := by
      simp [List.all_eq_true]
    have hne : (List.replicate (s + 1) 'A').isEmpty = false := by
      simp [List.isEmpty_iff]
    simp [hall, hne]
  b64encode_ne_empty := by
    intro s h
    have h2 : (String.mk (List.replicate (s + 1) 'A')).data = ("" : String).data :=
      congrArg String.data h
    simp at h2
  b64encode_no_space := by
    intro s c hc
    have : c = 'A' := List.eq_of_mem_replicate hc
    subst this
    decide

/-! ### Concrete accounting states used to evaluate the theorems -/

/-- A ledger with no accounts. -/
def emptyLedger : Server Nat :=
  { accounts := [], canTransferFn := fun _ _ _ => false,
    transferProof := fun _ _ _ _ => none, nextId := 0, log := [] }

/-- One citizen-level account with no registered keys. -/
def citizenAlice : Server Nat :=
  { accounts := [{ name := "alice", auth := .CITIZEN, balance := 0, keys := [] }],
    canTransferFn := fun _ _ _ => false,
    transferProof := fun _ _ _ _ => none, nextId := 0, log := [] }

/-- One citizen-level account with registered key `7`. -/
def keyedAlice : Server Nat :=
  { accounts := [{ name := "alice", auth := .CITIZEN, balance := 0, keys := [7] }],
    canTransferFn := fun _ _ _ => false,
    transferProof := fun _ _ _ _ => none, nextId := 0, log := [] }

/-- One citizen-level account with registered key `3`. -/
def keyedAlice3 : Server Nat :=
  { accounts := [{ name := "alice", auth := .CITIZEN, balance := 0, keys := [3] }],
    canTransferFn := fun _ _ _ => false,
    transferProof := fun _ _ _ _ => none, nextId := 0, log := [] }

/-- An account whose name contains a space, with registered key `7`. -/
def spacedNameLedger : Server Nat :=
  { accounts := [{ name := "a b", auth := .CITIZEN, balance := 0, keys := [7] }],
    canTransferFn := fun _ _ _ => false,
    transferProof := fun _ _ _ _ => none, nextId := 0, log := [] }

/-- Two accounts with an always-feasible transfer policy. -/
def aliceBobLedger : Server Nat :=
  { accounts := [{ name := "alice", auth := .CITIZEN, balance := 100, keys := [] },
                 { name := "bob", auth := .CITIZEN, balance := 0, keys := [] }],
    canTransferFn := fun _ _ _ => true,
    transferProof := fun _ _ _ _ => none, nextId := 0, log := [] }

/-! ### Spec-side definitions for the command-listing contract

The spec's `listVisibleTo(level)` contract: the registry entries, sorted by
name, filtered to those whose minimum level is at most the caller's level.
These definitions follow the spec's words and are compared with the
source-derived `list_commands` in the listing theorem below. -/

/-- Sortedness by command name in Python string order. -/
def sortedByKey : List (String × CommandInfo) → Bool
  | [] => true
  | [_] => true
  | a :: b :: rest => strLe a.1 b.1 && sortedByKey (b :: rest)

/-- The name-sorted registry entries visible at a level, per the spec contract. -/
def visibleCommands (level : Authorization) : List (String × CommandInfo) :=
  (sortStrings (COMMANDS.map Prod.fst)).filterMap (fun key =>
    match lookupCommand key with
    | some cmd => if commandVisible level cmd then some (key, cmd) else none
    | none => none)

/-! ### Helper lemmas about the string primitives -/

theorem mk_data (s : String) : String.mk s.data = s := rfl

theorem dropWhile_head_false {α : Type} (p : α → Bool) :
    ∀ (l : List α) (c : α) (cs : List α), l.dropWhile p = c :: cs → p c = false := by
  intro l
  induction l with
  | nil => intro c cs h; simp [List.dropWhile] at h
  | cons a as ih =>
    intro c cs h
    by_cases hp : p a = true
    · rw [List.dropWhile_cons_of_pos hp] at h
      exact ih c cs h
    · have hp' : p a = false := by simpa using hp
      rw [List.dropWhile_cons_of_neg (by simp [hp'])] at h
      cases h
      exact hp'

theorem head?_dropWhile_false {α : Type} (p : α → Bool) (l : List α) (c : α)
    (h : (l.dropWhile p).head? = some c) : p c = false := by
  cases hd : l.dropWhile p with
  | nil => rw [hd] at h; simp at h
  | cons x xs =>
    rw [hd] at h
    simp at h
    subst h
    exact dropWhile_head_false p l x xs hd

theorem dropWhile_self_of_head {α : Type} (p : α → Bool) (l : List α)
    (h : ∀ c, l.head? = some c → p c = false) : l.dropWhile p = l := by
  cases l with
  | nil => rfl
  | cons a as =>
    have := h a rfl
    simp [List.dropWhile, this]

theorem getLast?_dropWhile {α : Type} (p : α → Bool) :
    ∀ l : List α, l.dropWhile p ≠ [] → (l.dropWhile p).getLast? = l.getLast? := by
  intro l
  induction l with
  | nil => intro h; simp [List.dropWhile] at h
  | cons a as ih =>
    intro h
    by_cases hp : p a = true
    · rw [List.dropWhile_cons_of_pos hp] at h ⊢
      rw [ih h]
      have has : as ≠ [] := by
        rintro rfl
        simp [List.dropWhile] at h
      cases as with
      | nil => exact absurd rfl has
      | cons b bs => rfl
    · rw [List.dropWhile_cons_of_neg (by simpa using hp)]

theorem stripSet_subset_fix (p q : Char → Bool) (hpq : ∀ c, p c = true → q c = true)
    (s : String) : stripSet p (stripSet q s) = stripSet q s := by
  unfold stripSet
  set A := s.data.dropWhile q with hA
  set C := A.reverse.dropWhile q with hC
  have hmk : (String.mk C.reverse).data = C.reverse := rfl
  rw [hmk]
  have hCfalse : ∀ c, C.head? = some c → q c = false := by
    intro c hc
    exact head?_dropWhile_false q A.reverse c (hC ▸ hc)
  have step1 : C.reverse.dropWhile p = C.reverse := by
    apply dropWhile_self_of_head
    intro c hc
    rw [List.head?_reverse] at hc
    have hne : C ≠ [] := by
      intro hCe
      rw [hCe] at hc
      simp at hc
    have h2 : C.getLast? = A.reverse.getLast? := by
      rw [hC]
      exact getLast?_dropWhile q A.reverse (hC ▸ hne)
    rw [h2, List.getLast?_reverse] at hc
    have : q c = false := head?_dropWhile_false q s.data c (hA ▸ hc)
    cases hp : p c with
    | false => rfl
    | true => rw [hpq c hp] at this; cases this
  have step2 : C.dropWhile p = C := by
    apply dropWhile_self_of_head
    intro c hc
    have : q c = false := hCfalse c hc
    cases hp : p c with
    | false => rfl
    | true => rw [hpq c hp] at this; cases this
  rw [step1, List.reverse_reverse, step2]

theorem stripNLCR_pyStrip (s : String) : stripNLCR (pyStrip s) = pyStrip s := by
  unfold stripNLCR pyStrip
  apply stripSet_subset_fix
  intro c h
  simp only [Bool.or_eq_true, decide_eq_true_eq] at h
  rcases h with h | h <;> subst h <;> rfl

theorem pySplitAux_append_nonspace :
    ∀ (l₁ l₂ acc : List Char), (∀ c ∈ l₁, pyIsSpace c = false) →
      pySplitAux (l₁ ++ l₂) acc = pySplitAux l₂ (l₁.reverse ++ acc) := by
  intro l₁
  induction l₁ with
  | nil => intro l₂ acc _; simp
  | cons c cs ih =>
    intro l₂ acc h
    have hc : pyIsSpace c = false := h c (by simp)
    show pySplitAux (c :: (cs ++ l₂)) acc = _
    simp only [pySplitAux, hc, Bool.false_eq_true, if_false]
    rw [ih l₂ (c :: acc) (fun x hx => h x (by simp [hx]))]
    simp

theorem pySplitAux_emit_space (c : Char) (hc : pyIsSpace c = true) (l acc : List Char)
    (ha : acc ≠ []) :
    pySplitAux (c :: l) acc = String.mk acc.reverse :: pySplitAux l [] := by
  simp [pySplitAux, hc, ha]

theorem pySplitAux_skip_space (c : Char) (hc : pyIsSpace c = true) (l : List Char) :
    pySplitAux (c :: l) [] = pySplitAux l [] := by
  simp [pySplitAux, hc]

theorem pySplitAux_nil_emit (acc : List Char) (h : acc ≠ []) :
    pySplitAux [] acc = [String.mk acc.reverse] := by
  cases acc with
  | nil => exact absurd rfl h
  | cons a as => rfl

theorem pySplitAux_token_end (t : List Char) (h : t ≠ [])
    (n : ∀ c ∈ t, pyIsSpace c = false) : pySplitAux t [] = [String.mk t] := by
  have h2 := pySplitAux_append_nonspace t [] [] n
  simp at h2
  rw [h2, pySplitAux_nil_emit _ (by simpa using h), List.reverse_reverse]

theorem pySplit_token4 (t1 t2 t3 t4 : String)
    (h1 : t1.data ≠ []) (n1 : ∀ c ∈ t1.data, pyIsSpace c = false)
    (h2 : t2.data ≠ []) (n2 : ∀ c ∈ t2.data, pyIsSpace c = false)
    (h3 : t3.data ≠ []) (n3 : ∀ c ∈ t3.data, pyIsSpace c = false)
    (h4 : t4.data ≠ []) (n4 : ∀ c ∈ t4.data, pyIsSpace c = false) :
    pySplit (t1 ++ " " ++ t2 ++ " " ++ t3 ++ " " ++ t4) = [t1, t2, t3, t4] := by
  unfold pySplit
  have hdata : (t1 ++ " " ++ t2 ++ " " ++ t3 ++ " " ++ t4).data
      = t1.data ++ (' ' :: (t2.data ++ (' ' :: (t3.data ++ (' ' :: t4.data))))) := by
    simp [String.data_append]
  rw [hdata]
  rw [pySplitAux_append_nonspace _ _ _ n1]
  rw [pySplitAux_emit_space ' ' rfl _ _ (by simp [h1])]
  rw [List.append_nil, List.reverse_reverse, mk_data]
  rw [pySplitAux_append_nonspace _ _ _ n2]
  rw [pySplitAux_emit_space ' ' rfl _ _ (by simp [h2])]
  rw [List.append_nil, List.reverse_reverse, mk_data]
  rw [pySplitAux_append_nonspace _ _ _ n3]
  rw [pySplitAux_emit_space ' ' rfl _ _ (by simp [h3])]
  rw [List.append_nil, List.reverse_reverse, mk_data]
  rw [pySplitAux_token_end _ h4 n4, mk_data]

theorem splitFirstNLAux_append :
    ∀ (l₁ l₂ acc : List Char), (∀ c ∈ l₁, c ≠ '\n') →
      splitFirstNLAux (l₁ ++ '\n' :: l₂) acc
        = some (String.mk (acc.reverse ++ l₁), String.mk l₂) := by
  intro l₁
  induction l₁ with
  | nil => intro l₂ acc _; simp [splitFirstNLAux]
  | cons c cs ih =>
    intro l₂ acc h
    have hc : c ≠ '\n' := h c (by simp)
    show splitFirstNLAux (c :: (cs ++ '\n' :: l₂)) acc = _
    simp only [splitFirstNLAux, hc, if_false, if_neg hc]
    rw [ih l₂ (c :: acc) (fun x hx => h x (by simp [hx]))]
    simp

theorem pySplitNL1_append (header body : String) (h : ∀ c ∈ header.data, c ≠ '\n') :
    pySplitNL1 (header ++ "\n" ++ body) = [header, body] := by
  unfold pySplitNL1
  have hdata : (header ++ "\n" ++ body).data = header.data ++ '\n' :: body.data := by
    simp [String.data_append]
  rw [hdata, splitFirstNLAux_append _ _ _ h]
  simp [mk_data]

/-! ### Helper lemmas about the key-verification loop -/

theorem verify_keys_eq_find (M : CryptoModel) (d : M.Digest) (sig : M.Sig) :
    ∀ l : List M.PubKey,
      verify_keys M d sig l = (l.find? (fun k => M.verify k d sig)).isSome := by
  intro l
  induction l with
  | nil => rfl
  | cons k rest ih =>
    by_cases h : M.verify k d sig = true
    · simp [verify_keys, h, List.find?_cons_of_pos]
    · have h' : M.verify k d sig = false := by simpa using h
      simp [verify_keys, h', List.find?_cons_of_neg, ih]

theorem verify_keys_post_irrelevant (M : CryptoModel) (d : M.Digest) (sig : M.Sig) :
    ∀ (pre : List M.PubKey) (k : M.PubKey) (post post' : List M.PubKey),
      M.verify k d sig = true →
      verify_keys M d sig (pre ++ k :: post) = verify_keys M d sig (pre ++ k :: post') := by
  intro pre
  induction pre with
  | nil => intro k post post' h; simp [verify_keys, h]
  | cons p ps ih =>
    intro k post post' h
    simp only [List.cons_append, verify_keys, List.append_eq]
    rw [ih k post post' h]

theorem verify_keys_none (M : CryptoModel) (d : M.Digest) (sig : M.Sig)
    (l : List M.PubKey) (h : ∀ k ∈ l, M.verify k d sig = false) :
    verify_keys M d sig l = false := by
  rw [verify_keys_eq_find]
  rw [List.find?_eq_none.2 (fun k hk => by simp [h k hk])]
  rfl

theorem verify_keys_sign_iff (M : CryptoModel) (d : M.Digest) (k : M.PrivKey) :
    ∀ l : List M.PubKey, verify_keys M d (M.sign k d) l = true ↔ M.pub k ∈ l := by
  intro l
  induction l with
  | nil => simp [verify_keys]
  | cons key rest ih =>
    by_cases h : M.verify key d (M.sign k d) = true
    · have hk : key = M.pub k := M.verify_unique k key d h
      subst hk
      simp [verify_keys, h]
    · have h' : M.verify key d (M.sign k d) = false := by simpa using h
      have hne : M.pub k ≠ key := by
        intro he
        rw [← he] at h'
        rw [M.verify_sign k d] at h'
        cases h'
      have hne' : key ≠ M.pub k := fun x => hne x.symm
      simp [verify_keys, h', ih, List.mem_cons]
      tauto

/-- Retrieving an account by name returns an account bearing that name. -/
theorem get_account?_name {K : Type} (s : Server K) (n : String) (a : Account K)
    (h : s.get_account? n = some a) : a.name = n := by
  unfold Server.get_account? at h
  have h2 := List.find?_some h
  simpa using h2

/-! ### The claims -/

/-- C6: for every one of the five token parsers (transfer, admin-transfer,
authorize, print-money, admin-create-recurring-transfer), a message whose
whitespace-token count differs from the command's arity, or whose typed field
fails coercion (non-integer amount, unknown role name), parses to the malformed
signal `none`, never a partial tuple; these parsers are total functions into
`Option`, so they never throw. -/
theorem parsers_reject_malformed :
    (∀ m : String, (pySplit m).length ≠ 3 → parse_transfer_command m = none) ∧
    (∀ m t a d : String, pySplit m = [t, a, d] → pyInt a = none →
      parse_transfer_command m = none) ∧
    (∀ m : String, (pySplit m).length ≠ 4 → parse_admin_transfer_command m = none) ∧
    (∀ m t a s d : String, pySplit m = [t, a, s, d] → pyInt a = none →
      parse_admin_transfer_command m = none) ∧
    (∀ m : String, (pySplit m).length ≠ 3 → parse_authorization m = none) ∧
    (∀ m t b l : String, pySplit m = [t, b, l] →
      Authorization.fromName (pyUpper l) = none → parse_authorization m = none) ∧
    (∀ m : String, (pySplit m).length ≠ 3 → parse_print_money m = none) ∧
    (∀ m t a b : String, pySplit m = [t, a, b] → pyInt a = none →
      parse_print_money m = none) ∧
    (∀ m : String, (pySplit m).length ≠ 5 →
      parse_admin_create_recurring_transfer m = none) ∧
    (∀ m t a s d c : String, pySplit m = [t, a, s, d, c] →
      pyInt a = none ∨ pyInt c = none →
      parse_admin_create_recurring_transfer m = none) := by
  refine ⟨?_, ?_, ?_, ?_, ?_, ?_, ?_, ?_, ?_, ?_⟩
  · intro m h
    rcases hs : pySplit m with _ | ⟨t, _ | ⟨a, _ | ⟨d, _ | ⟨x, r⟩⟩⟩⟩
    · simp [parse_transfer_command, hs]
    · simp [parse_transfer_command, hs]
    · simp [parse_transfer_command, hs]
    · rw [hs] at h; simp at h
    · simp [parse_transfer_command, hs]
  · intro m t a d hs hint
    simp [parse_transfer_command, hs, hint]
  · intro m h
    rcases hs : pySplit m with _ | ⟨t, _ | ⟨a, _ | ⟨s, _ | ⟨d, _ | ⟨x, r⟩⟩⟩⟩⟩
    · simp [parse_admin_transfer_command, hs]
    · simp [parse_admin_transfer_command, hs]
    · simp [parse_admin_transfer_command, hs]
    · simp [parse_admin_transfer_command, hs]
    · rw [hs] at h; simp at h
    · simp [parse_admin_transfer_command, hs]
  · intro m t a s d hs hint
    simp [parse_admin_transfer_command, hs, hint]
  · intro m h
    rcases hs : pySplit m with _ | ⟨t, _ | ⟨b, _ | ⟨l, _ | ⟨x, r⟩⟩⟩⟩
    · simp [parse_authorization, hs]
    · simp [parse_authorization, hs]
    · simp [parse_authorization, hs]
    · rw [hs] at h; simp at h
    · simp [parse_authorization, hs]
  · intro m t b l hs hint
    simp [parse_authorization, hs, hint]
  · intro m h
    rcases hs : pySplit m with _ | ⟨t, _ | ⟨a, _ | ⟨b, _ | ⟨x, r⟩⟩⟩⟩
    · simp [parse_print_money, hs]
    · simp [parse_print_money, hs]
    · simp [parse_print_money, hs]
    · rw [hs] at h; simp at h
    · simp [parse_print_money, hs]
  · intro m t a b hs hint
    simp [parse_print_money, hs, hint]
  · intro m h
    rcases hs : pySplit m with _ | ⟨t, _ | ⟨a, _ | ⟨s, _ | ⟨d, _ | ⟨c, _ | ⟨x, r⟩⟩⟩⟩⟩⟩
    · simp [parse_admin_create_recurring_transfer, hs]
    · simp [parse_admin_create_recurring_transfer, hs]
    · simp [parse_admin_create_recurring_transfer, hs]
    · simp [parse_admin_create_recurring_transfer, hs]
    · simp [parse_admin_create_recurring_transfer, hs]
    · rw [hs] at h; simp at h
    · simp [parse_admin_create_recurring_transfer, hs]
  · intro m t a s d c hs hint
    rcases hint with h1 | h2
    · simp [parse_admin_create_recurring_transfer, hs, h1]
    · cases hpa : pyInt a <;>
        simp [parse_admin_create_recurring_transfer, hs, h2, hpa]

/-- Witness for C6: concrete malformed messages for each failure mode. -/
theorem parsers_reject_malformed_witness :
    parse_transfer_command "transfer 10" = none ∧
    parse_transfer_command "transfer ten bob" = none ∧
    parse_authorization "authorize bob emperor" = none ∧
    parse_admin_create_recurring_transfer "admin-create-recurring-transfer 5 a b ten" =
      none :=
  ⟨parsers_reject_malformed.1 "transfer 10" (by decide),
   parsers_reject_malformed.2.1 "transfer ten bob" "transfer" "ten" "bob" (by decide)
     (by decide),
   parsers_reject_malformed.2.2.2.2.2.1 "authorize bob emperor" "authorize" "bob"
     "emperor" (by decide) (by decide),
   parsers_reject_malformed.2.2.2.2.2.2.2.2.2
     "admin-create-recurring-transfer 5 a b ten"
     "admin-create-recurring-transfer" "5" "a" "b" "ten" (by decide)
     (Or.inr (by decide))⟩

/-- C7: amount fields are parsed as arbitrary-precision integers with no sign
validation: whenever the amount token of a transfer, print-money, or
admin-transfer message is a syntactically valid integer literal (including zero
and negative values), the parser returns a well-typed tuple containing exactly
that integer. -/
theorem parsers_accept_integer_amounts :
    (∀ (m t a d : String) (n : Int), pySplit m = [t, a, d] → pyInt a = some n →
      parse_transfer_command m = some (n, d)) ∧
    (∀ (m t a b : String) (n : Int), pySplit m = [t, a, b] → pyInt a = some n →
      parse_print_money m = some (n, b)) ∧
    (∀ (m t a s d : String) (n : Int), pySplit m = [t, a, s, d] → pyInt a = some n →
      parse_admin_transfer_command m = some (s, n, d)) := by
  refine ⟨?_, ?_, ?_⟩
  · intro m t a d n hs hint
    simp [parse_transfer_command, hs, hint]
  · intro m t a b n hs hint
    simp [parse_print_money, hs, hint]
  · intro m t a s d n hs hint
    simp [parse_admin_transfer_command, hs, hint]

/-- Witness for C7: zero and negative amounts are accepted verbatim. -/
theorem parsers_accept_integer_amounts_witness :
    parse_transfer_command "transfer -5 bob" = some (-5, "bob") ∧
    parse_print_money "print-money 0 alice" = some (0, "alice") ∧
    parse_admin_transfer_command "admin-transfer -17 alice bob" =
      some ("alice", -17, "bob") :=
  ⟨parsers_accept_integer_amounts.1 "transfer -5 bob" "transfer" "-5" "bob" (-5)
     (by decide) (by decide),
   parsers_accept_integer_amounts.2.1 "print-money 0 alice" "print-money" "0" "alice" 0
     (by decide) (by decide),
   parsers_accept_integer_amounts.2.2 "admin-transfer -17 alice bob" "admin-transfer"
     "-17" "alice" "bob" (-17) (by decide) (by decide)⟩

/-- C9: the reply of `process_proxy_command` is independent of the outer author:
for any two author names and the same message, accounting state and fuel, the
outcome is identical — only the proxied account's data determines it. -/
theorem process_proxy_command_ignores_author (M : CryptoModel) (fuel : Nat)
    (author1 author2 message : String) (server : Server M.PubKey) :
    process_proxy_command M fuel author1 message server =
      process_proxy_command M fuel author2 message server := by
  cases fuel <;> rfl

/-- C2 counterexample: the gated `authorize` command (minimum level ADMIN)
produces different denial texts for a missing acting account and for an
existing acting account below the minimum level, so the denial does reveal
which of the two causes applied. -/
theorem authorization_denial_counterexample :
    (process_command trivialCrypto 1 "alice" "authorize bob admin" emptyLedger).1 =
      "Sorry, I can't process your request because `alice` does not have an account yet." ∧
    (process_command trivialCrypto 1 "alice" "authorize bob admin" citizenAlice).1 =
      "Sorry, I can't process your request because `alice` does not have the required authorization." ∧
    ("Sorry, I can't process your request because `alice` does not have an account yet." ≠
      "Sorry, I can't process your request because `alice` does not have the required authorization.") :=
  ⟨by decide, by decide, by decide⟩

/-- C2 (amended): the authorization gate raises a recoverable denial in both
cases, but the texts differ — a missing acting account yields the
no-account message while an existing account below the required level yields
the no-authorization message, and the two messages are never equal. -/
theorem assert_authorized_denials_distinguish {K : Type} (server : Server K)
    (name : String) (level : Authorization) :
    (server.get_account? name = none →
      assert_authorized name server level =
        .error ("Sorry, I can't process your request because `" ++ name ++
          "` does not have an account yet.")) ∧
    (∀ account : Account K, server.get_account? name = some account →
      account.get_authorization.value < level.value →
      assert_authorized name server level =
        .error ("Sorry, I can't process your request because `" ++ name ++
          "` does not have the required authorization.")) ∧
    ("Sorry, I can't process your request because `" ++ name ++
        "` does not have an account yet." ≠
      "Sorry, I can't process your request because `" ++ name ++
        "` does not have the required authorization.") := by
  refine ⟨?_, ?_, ?_⟩
  · intro h
    simp [assert_authorized, assert_is_account, h]
  · intro account h hlt
    simp [assert_authorized, assert_is_account, h, hlt]
  · intro h
    have h2 := congrArg String.data h
    simp only [String.data_append, List.append_assoc] at h2
    have h3 := List.append_cancel_left h2
    have h4 := List.append_cancel_left h3
    exact absurd h4 (by decide)

/-- Witness for C2's amended theorem at a concrete ledger and account. -/
theorem assert_authorized_denials_distinguish_witness :
    assert_authorized "alice" emptyLedger Authorization.ADMIN =
      .error ("Sorry, I can't process your request because `" ++ "alice" ++
        "` does not have an account yet.") ∧
    assert_authorized "alice" citizenAlice Authorization.ADMIN =
      .error ("Sorry, I can't process your request because `" ++ "alice" ++
        "` does not have the required authorization.") :=
  ⟨(assert_authorized_denials_distinguish emptyLedger "alice" Authorization.ADMIN).1 rfl,
   (assert_authorized_denials_distinguish citizenAlice "alice" Authorization.ADMIN).2.1
     { name := "alice", auth := .CITIZEN, balance := 0, keys := [] } rfl (by decide)⟩

/-- C10: a well-formed proxy envelope naming an existing account with an empty
registered-key list always fails with the recoverable invalid-signature
condition, whatever the signature bytes, and the inner command is never
dispatched — the accounting state is returned unchanged. -/
theorem proxy_no_keys_invalid_signature (M : CryptoModel) (fuel : Nat)
    (author message name : String) (sig : M.Sig) (cmd : String)
    (server : Server M.PubKey) (account : Account M.PubKey)
    (hparse : parse_proxy_command M message = .ok (name, sig, cmd))
    (hacct : server.get_account? name = some account)
    (hkeys : account.keys = []) :
    process_proxy_command M (fuel + 1) author message server =
      (.error proxySignatureError, server) := by
  show process_proxy_core M (process_command M fuel) author message server = _
  simp [process_proxy_core, hparse, assert_is_account, hacct,
    Account.list_public_keys, hkeys, verify_keys]

/-- Witness for C10: a decodable envelope for the keyless account `alice`. -/
theorem proxy_no_keys_invalid_signature_witness :
    process_proxy_command trivialCrypto 1 "bob" "proxy dsa alice AAA\nhelp" citizenAlice =
      (.error proxySignatureError, citizenAlice) :=
  proxy_no_keys_invalid_signature trivialCrypto 0 "bob" "proxy dsa alice AAA\nhelp"
    "alice" (2 : Nat) "help" citizenAlice
    { name := "alice", auth := .CITIZEN, balance := 0, keys := [] } rfl rfl rfl

/-- C3: during proxy verification the registered keys are tried in their stored
order against the hash of the inner command text, stopping at the first key
that verifies (keys after it are never consulted, so they cannot change the
outcome); if no registered key verifies, processing fails with the recoverable
invalid-signature condition and the inner command is never executed. -/
theorem proxy_verifies_keys_in_order (M : CryptoModel) (fuel : Nat)
    (author message name : String) (sig : M.Sig) (cmd : String)
    (server : Server M.PubKey) (account : Account M.PubKey)
    (hparse : parse_proxy_command M message = .ok (name, sig, cmd))
    (hacct : server.get_account? name = some account) :
    (process_proxy_command M (fuel + 1) author message server =
      if verify_keys M (M.sha3_512 cmd) sig account.list_public_keys then
        (Except.ok (process_command M fuel name cmd server).1,
         (process_command M fuel name cmd server).2)
      else (Except.error proxySignatureError, server)) ∧
    (verify_keys M (M.sha3_512 cmd) sig account.list_public_keys =
      (account.list_public_keys.find? (fun k => M.verify k (M.sha3_512 cmd) sig)).isSome) ∧
    (∀ (pre post post' : List M.PubKey) (k : M.PubKey),
      M.verify k (M.sha3_512 cmd) sig = true →
      verify_keys M (M.sha3_512 cmd) sig (pre ++ k :: post) =
        verify_keys M (M.sha3_512 cmd) sig (pre ++ k :: post')) ∧
    ((∀ k ∈ account.list_public_keys, M.verify k (M.sha3_512 cmd) sig = false) →
      process_proxy_command M (fuel + 1) author message server =
        (Except.error proxySignatureError, server)) := by
  refine ⟨?_, verify_keys_eq_find M (M.sha3_512 cmd) sig account.list_public_keys,
    fun pre post post' k h =>
      verify_keys_post_irrelevant M (M.sha3_512 cmd) sig pre k post post' h, ?_⟩
  · show process_proxy_core M (process_command M fuel) author message server = _
    simp only [process_proxy_core, hparse, assert_is_account, hacct]
  · intro hall
    have hfalse := verify_keys_none M (M.sha3_512 cmd) sig account.list_public_keys hall
    show process_proxy_core M (process_command M fuel) author message server = _
    simp [process_proxy_core, hparse, assert_is_account, hacct, hfalse]

/-- Witness for C3 at a concrete envelope whose signature decodes to `3` for
the account with stored key list `[3]`. -/
theorem proxy_verifies_keys_in_order_witness :
    process_proxy_command trivialCrypto 1 "bob" "proxy dsa alice AAAA\nhelp" keyedAlice3 =
      if verify_keys trivialCrypto (trivialCrypto.sha3_512 "help") (3 : Nat)
          (Account.list_public_keys
            { name := "alice", auth := .CITIZEN, balance := 0, keys := [(3 : Nat)] }) then
        (Except.ok
          (process_command trivialCrypto 0 "alice" "help" keyedAlice3).1,
         (process_command trivialCrypto 0 "alice" "help" keyedAlice3).2)
      else (Except.error proxySignatureError, keyedAlice3) :=
  (proxy_verifies_keys_in_order trivialCrypto 0 "bob" "proxy dsa alice AAAA\nhelp"
    "alice" (3 : Nat) "help" keyedAlice3
    { name := "alice", auth := .CITIZEN, balance := 0, keys := [(3 : Nat)] } rfl rfl).1

/-- C4 counterexample: a proxy message whose signature field fails base64
decoding raises the recoverable condition text `Invalid signature. ...`, not
the malformed-proxy-envelope guidance text the claim promises (the other
deviations do raise the guidance text). -/
theorem proxy_bad_base64_counterexample :
    parse_proxy_command trivialCrypto "proxy dsa alice abc\nhelp" =
      .error "Invalid signature. Invalid base64-encoded string" ∧
    "Invalid signature. Invalid base64-encoded string" ≠ proxyFormattingError ∧
    process_proxy_command trivialCrypto 1 "bob" "proxy dsa alice abc\nhelp" emptyLedger =
      (.error "Invalid signature. Invalid base64-encoded string", emptyLedger) :=
  ⟨rfl, by decide, rfl⟩

/-- C4 (amended): every deviation from the proxy envelope format raises a
recoverable condition and the inner command is never executed: a single-line
message, a header that does not tokenize into four fields, and an unknown
protocol identifier all raise the malformed-envelope guidance text, while a
signature field that fails base64 decoding raises `Invalid signature. <detail>`
— a text that is never the guidance text; in every such case
`process_proxy_command` propagates the condition with the accounting state
unchanged. -/
theorem parse_proxy_malformed_envelopes (M : CryptoModel) (message : String) :
    (pySplitNL1 message = [message] →
      parse_proxy_command M message = .error proxyFormattingError) ∧
    (∀ line cmd0 : String, pySplitNL1 message = [line, cmd0] →
      (pySplit line).length ≠ 4 →
      parse_proxy_command M message = .error proxyFormattingError) ∧
    (∀ line cmd0 t p a s : String, pySplitNL1 message = [line, cmd0] →
      pySplit line = [t, p, a, s] → p ≠ "dsa" →
      parse_proxy_command M message = .error proxyFormattingError) ∧
    (∀ line cmd0 t a s e : String, pySplitNL1 message = [line, cmd0] →
      pySplit line = [t, "dsa", a, s] → M.b64decode s = .error e →
      parse_proxy_command M message = .error ("Invalid signature. " ++ e)) ∧
    (∀ e : String, "Invalid signature. " ++ e ≠ proxyFormattingError) ∧
    (∀ (fuel : Nat) (author e : String) (server : Server M.PubKey),
      parse_proxy_command M message = .error e →
      process_proxy_command M (fuel + 1) author message server = (.error e, server)) := by
  refine ⟨?_, ?_, ?_, ?_, ?_, ?_⟩
  · intro h
    simp [parse_proxy_command, parse_proxy_command_impl, h]
  · intro line cmd0 h hlen
    rcases hs : pySplit line with _ | ⟨t, _ | ⟨p, _ | ⟨a, _ | ⟨s, _ | ⟨x, r⟩⟩⟩⟩⟩
    · simp [parse_proxy_command, parse_proxy_command_impl, h, hs]
    · simp [parse_proxy_command, parse_proxy_command_impl, h, hs]
    · simp [parse_proxy_command, parse_proxy_command_impl, h, hs]
    · simp [parse_proxy_command, parse_proxy_command_impl, h, hs]
    · rw [hs] at hlen; simp at hlen
    · simp [parse_proxy_command, parse_proxy_command_impl, h, hs]
  · intro line cmd0 t p a s h hs hp
    simp [parse_proxy_command, parse_proxy_command_impl, h, hs, hp]
  · intro line cmd0 t a s e h hs hdec
    simp [parse_proxy_command, parse_proxy_command_impl, h, hs, hdec]
  · intro e he
    have h2 := congrArg (fun l => List.take ("Invalid signature. ".data.length) l)
      (congrArg String.data he)
    simp only [String.data_append] at h2
    rw [List.take_left] at h2
    exact absurd h2 (by decide)
  · intro fuel author e server hp
    show process_proxy_core M (process_command M fuel) author message server = _
    simp [process_proxy_core, hp]

/-- Witness for C4's amended theorem: a bodyless message and an unknown
protocol identifier both yield the guidance text, and the condition propagates
through `process_proxy_command` unchanged. -/
theorem parse_proxy_malformed_envelopes_witness :
    parse_proxy_command trivialCrypto "proxy dsa alice" = .error proxyFormattingError ∧
    parse_proxy_command trivialCrypto "proxy rsa alice AAAA\nhelp" =
      .error proxyFormattingError ∧
    process_proxy_command trivialCrypto 1 "bob" "proxy dsa alice" emptyLedger =
      (.error proxyFormattingError, emptyLedger) :=
  ⟨(parse_proxy_malformed_envelopes trivialCrypto "proxy dsa alice").1 rfl,
   (parse_proxy_malformed_envelopes trivialCrypto "proxy rsa alice AAAA\nhelp").2.2.1
     "proxy rsa alice AAAA" "help" "proxy" "rsa" "alice" "AAAA" rfl rfl (by decide),
   (parse_proxy_malformed_envelopes trivialCrypto "proxy dsa alice").2.2.2.2.2 0 "bob"
     proxyFormattingError emptyLedger
     ((parse_proxy_malformed_envelopes trivialCrypto "proxy dsa alice").1 rfl)⟩

/-- C5: for a well-formed transfer command with a positive amount whose acting
account (which is also the sender) and recipient both exist, processing asks
`can_transfer` with exactly that sender, recipient and amount before anything
else, and calls `transfer` — with the same parties and amount — exactly when
`can_transfer` answered `true`: the accounting-service call log extends by the
`canTransfer` query followed by the `transfer` call only in the feasible case. -/
theorem process_transfer_can_before_transfer {K : Type} (author message : String)
    (server : Server K) (amount : Int) (destination : String)
    (accA accD : Account K)
    (hparse : parse_transfer_command message = some (amount, destination))
    (_hpos : 0 < amount)
    (hA : server.get_account? author = some accA)
    (hD : server.get_account? destination = some accD) :
    (process_transfer author message server).2.log =
      server.log ++ Event.canTransfer author destination amount ::
        (if server.canTransferFn author destination amount then
          [Event.transfer author author destination amount]
        else []) := by
  have hnA : accA.name = author := get_account?_name server author accA hA
  have hnD : accD.name = destination := get_account?_name server destination accD hD
  simp only [process_transfer, hparse, perform_transfer, assert_is_account, hA, hD]
  cases hct : server.canTransferFn author destination amount with
  | false =>
    simp [Server.can_transfer, Server.transfer, hnA, hnD, hct]
  | true =>
    simp [Server.can_transfer, Server.transfer, Server.updateAccount, hnA, hnD, hct]

/-- Witness for C5 on a concrete two-account ledger with a feasible policy. -/
theorem process_transfer_can_before_transfer_witness :
    (process_transfer "alice" "transfer 10 bob" aliceBobLedger).2.log =
      aliceBobLedger.log ++ Event.canTransfer "alice" "bob" 10 ::
        (if aliceBobLedger.canTransferFn "alice" "bob" 10 then
          [Event.transfer "alice" "alice" "bob" 10]
        else []) :=
  process_transfer_can_before_transfer "alice" "transfer 10 bob" aliceBobLedger 10 "bob"
    { name := "alice", auth := .CITIZEN, balance := 100, keys := [] }
    { name := "bob", auth := .CITIZEN, balance := 0, keys := [] }
    (by decide) (by decide) rfl rfl

set_option maxRecDepth 100000 in
/-- C8: the command listing produced for a caller is the formatted image of the
name-sorted registry entries whose minimum level is at most the caller's (or
default) level, entries carrying no explicit minimum being visible to every
caller, and listing twice for the same level yields the same ordered sequence. -/
theorem list_commands_sorted_and_filtered {K : Type} (author : String)
    (server : Server K) :
    (list_commands author server = list_commands author server) ∧
    (sortedByKey (visibleCommands (get_authorization_or_citizen author server)) = true) ∧
    (list_commands author server =
      (visibleCommands (get_authorization_or_citizen author server)).map
        (fun p => commandEntry p.2)) ∧
    (∀ p ∈ visibleCommands (get_authorization_or_citizen author server),
      p ∈ COMMANDS) ∧
    (∀ p ∈ COMMANDS,
      (p ∈ visibleCommands (get_authorization_or_citizen author server) ↔
        commandVisible (get_authorization_or_citizen author server) p.2 = true)) := by
  refine ⟨rfl, ?_, ?_, ?_, ?_⟩
  · cases hl : get_authorization_or_citizen author server <;> decide
  · simp only [list_commands]
    cases hl : get_authorization_or_citizen author server <;> decide
  · cases hl : get_authorization_or_citizen author server <;> decide
  · cases hl : get_authorization_or_citizen author server <;> decide

/-- Witness for C8 at a concrete caller and ledger. -/
theorem list_commands_sorted_and_filtered_witness :
    (list_commands "carol" emptyLedger = list_commands "carol" emptyLedger) ∧
    (sortedByKey (visibleCommands (get_authorization_or_citizen "carol" emptyLedger)) =
      true) ∧
    (list_commands "carol" emptyLedger =
      (visibleCommands (get_authorization_or_citizen "carol" emptyLedger)).map
        (fun p => commandEntry p.2)) ∧
    (∀ p ∈ visibleCommands (get_authorization_or_citizen "carol" emptyLedger),
      p ∈ COMMANDS) ∧
    (∀ p ∈ COMMANDS,
      (p ∈ visibleCommands (get_authorization_or_citizen "carol" emptyLedger) ↔
        commandVisible (get_authorization_or_citizen "carol" emptyLedger) p.2 = true)) :=
  list_commands_sorted_and_filtered "carol" emptyLedger

/-- C1 counterexample: for the account named `a b` (a name containing a space)
with the signing key's public key registered, the composed envelope fails to
parse — its header tokenizes into five fields — so the round trip raises the
malformed-envelope condition instead of dispatching the inner command, refuting
the claimed equivalence. -/
theorem compose_proxy_roundtrip_counterexample :
    compose_proxy_command trivialCrypto "a b" (7 : Nat) "transfer 1 bob" =
      "proxy dsa a b AAAAAAAA\ntransfer 1 bob" ∧
    spacedNameLedger.get_account? "a b" =
      some { name := "a b", auth := .CITIZEN, balance := 0, keys := [7] } ∧
    trivialCrypto.pub (7 : Nat) ∈
      Account.list_public_keys
        { name := "a b", auth := .CITIZEN, balance := 0, keys := [(7 : Nat)] } ∧
    process_proxy_command trivialCrypto 5 "outer"
      (compose_proxy_command trivialCrypto "a b" (7 : Nat) "transfer 1 bob")
      spacedNameLedger =
      (.error proxyFormattingError, spacedNameLedger) :=
  ⟨rfl, rfl, List.mem_singleton.mpr rfl, rfl⟩

/-- C1 (amended): for an existing account whose name is a nonempty
whitespace-free token, composing an envelope with `compose_proxy_command` and
processing it with `process_proxy_command` always verifies exactly the
whitespace-stripped body that was signed (the parse yields it verbatim, a
single trailing line-terminator strip being a no-op on it), and the inner
command is dispatched if and only if the signing key's public key is among the
account's registered keys; otherwise the recoverable invalid-signature
condition is raised.  (The name restriction is forced: a name containing
whitespace breaks the header tokenization, as the counterexample shows.) -/
theorem compose_proxy_roundtrip (M : CryptoModel) (fuel : Nat)
    (author name : String) (key : M.PrivKey) (body : String)
    (server : Server M.PubKey) (account : Account M.PubKey)
    (hname_ne : name.data ≠ [])
    (hname_ws : ∀ c ∈ name.data, pyIsSpace c = false)
    (hacct : server.get_account? name = some account) :
    (parse_proxy_command M (compose_proxy_command M name key body) =
      .ok (name, M.sign key (M.sha3_512 (pyStrip body)), pyStrip body)) ∧
    (M.pub key ∈ account.list_public_keys →
      process_proxy_command M (fuel + 1) author
          (compose_proxy_command M name key body) server =
        (Except.ok (process_command M fuel name (pyStrip body) server).1,
         (process_command M fuel name (pyStrip body) server).2)) ∧
    (M.pub key ∉ account.list_public_keys →
      process_proxy_command M (fuel + 1) author
          (compose_proxy_command M name key body) server =
        (Except.error proxySignatureError, server)) := by
  set enc := M.b64encode (M.sign key (M.sha3_512 (pyStrip body))) with henc
  have henc_ne : enc.data ≠ [] := by
    intro h0
    apply M.b64encode_ne_empty (M.sign key (M.sha3_512 (pyStrip body)))
    have h1 : enc = "" := by
      rw [← mk_data enc, h0]
    rw [henc] at h1
    exact h1
  have henc_ws : ∀ c ∈ enc.data, pyIsSpace c = false := by
    rw [henc]
    exact M.b64encode_no_space _
  have hws_ne_nl : ∀ c : Char, pyIsSpace c = false → c ≠ '\n' := by
    intro c h he
    subst he
    exact absurd h (by decide)
  have hname_nl : ∀ c ∈ name.data, c ≠ '\n' := fun c hc => hws_ne_nl c (hname_ws c hc)
  have hheader_nl : ∀ c ∈ ("proxy dsa " ++ name ++ " " ++ enc).data, c ≠ '\n' := by
    intro c hc
    simp only [String.data_append, List.mem_append] at hc
    have hlit : ∀ c ∈ ("proxy dsa " : String).data, c ≠ '\n' := by decide
    have hsp : ∀ c ∈ (" " : String).data, c ≠ '\n' := by decide
    rcases hc with ((hc | hc) | hc) | hc
    · exact hlit c hc
    · exact hname_nl c hc
    · exact hsp c hc
    · exact hws_ne_nl c (henc_ws c hc)
  have hsplit1 : pySplitNL1 ("proxy dsa " ++ name ++ " " ++ enc ++ "\n" ++ pyStrip body)
      = ["proxy dsa " ++ name ++ " " ++ enc, pyStrip body] :=
    pySplitNL1_append ("proxy dsa " ++ name ++ " " ++ enc) (pyStrip body) hheader_nl
  have hsplit2 : pySplit ("proxy dsa " ++ name ++ " " ++ enc) = ["proxy", "dsa", name, enc] := by
    have h4 := pySplit_token4 "proxy" "dsa" name enc (by decide) (by decide) (by decide)
      (by decide) hname_ne hname_ws henc_ne henc_ws
    exact h4
  have hparse : parse_proxy_command M (compose_proxy_command M name key body) =
      .ok (name, M.sign key (M.sha3_512 (pyStrip body)), pyStrip body) := by
    show parse_proxy_command M ("proxy dsa " ++ name ++ " " ++ enc ++ "\n" ++ pyStrip body) = _
    simp only [parse_proxy_command, parse_proxy_command_impl, hsplit1, stripNLCR_pyStrip,
      hsplit2, bne_self_eq_false, Bool.false_eq_true, if_false, henc, M.b64_roundtrip]
  refine ⟨hparse, ?_, ?_⟩
  · intro hmem
    have hv : verify_keys M (M.sha3_512 (pyStrip body))
        (M.sign key (M.sha3_512 (pyStrip body))) account.list_public_keys = true :=
      (verify_keys_sign_iff M (M.sha3_512 (pyStrip body)) key account.list_public_keys).2 hmem
    show process_proxy_core M (process_command M fuel) author
      (compose_proxy_command M name key body) server = _
    simp [process_proxy_core, hparse, assert_is_account, hacct, hv]
  · intro hmem
    have hv : verify_keys M (M.sha3_512 (pyStrip body))
        (M.sign key (M.sha3_512 (pyStrip body))) account.list_public_keys = false := by
      cases hb : verify_keys M (M.sha3_512 (pyStrip body))
          (M.sign key (M.sha3_512 (pyStrip body))) account.list_public_keys with
      | false => rfl
      | true =>
        exact absurd
          ((verify_keys_sign_iff M (M.sha3_512 (pyStrip body)) key
            account.list_public_keys).1 hb) hmem
    show process_proxy_core M (process_command M fuel) author
      (compose_proxy_command M name key body) server = _
    simp [process_proxy_core, hparse, assert_is_account, hacct, hv]

/-- Witness for C1's amended theorem: the round trip for the account `alice`
with registered key `7` parses back the stripped body and dispatches it. -/
theorem compose_proxy_roundtrip_witness :
    (parse_proxy_command trivialCrypto
        (compose_proxy_command trivialCrypto "alice" (7 : Nat) "hello world") =
      .ok ("alice", trivialCrypto.sign (7 : Nat) (trivialCrypto.sha3_512 (pyStrip "hello world")),
        pyStrip "hello world")) ∧
    (process_proxy_command trivialCrypto 1 "outer"
        (compose_proxy_command trivialCrypto "alice" (7 : Nat) "hello world") keyedAlice =
      (Except.ok
        (process_command trivialCrypto 0 "alice" (pyStrip "hello world") keyedAlice).1,
       (process_command trivialCrypto 0 "alice" (pyStrip "hello world") keyedAlice).2)) :=
  ⟨(compose_proxy_roundtrip trivialCrypto 0 "outer" "alice" (7 : Nat) "hello world" keyedAlice
      { name := "alice", auth := .CITIZEN, balance := 0, keys := [(7 : Nat)] }
      (by decide) (by decide) rfl).1,
   (compose_proxy_roundtrip trivialCrypto 0 "outer" "alice" (7 : Nat) "hello world" keyedAlice
      { name := "alice", auth := .CITIZEN, balance := 0, keys := [(7 : Nat)] }
      (by decide) (by decide) rfl).2.1 (List.mem_singleton.mpr rfl)⟩

end Taubot
